import Mathlib

/-
Verification development for the job-materializer radar pipeline
(src/radar.py).  The Python source is shallowly embedded below:
pure helpers become Lean functions, the stateful acceptance pipeline
becomes explicit state passing over a `PState` record, machine floats
used as epoch times become rationals, and fallible external calls are
modelled with `Except` / `Option` at the point where the source
catches their exceptions.
-/

namespace Radar

/- ## SHA-256 (hashlib.sha256, as used by stable_job_id)
A byte is a `Nat` below 256; words are `Nat`s reduced mod 2^32. -/

/-- Rotate a 32-bit word right by `n` bits. -/
def rotr32 (x n : Nat) : Nat :=
  (x / 2 ^ n + x % 2 ^ n * 2 ^ (32 - n)) % 2 ^ 32

/-- Bitwise complement within 32 bits. -/
def not32 (x : Nat) : Nat := x ^^^ 4294967295

def ch32 (x y z : Nat) : Nat := (x &&& y) ^^^ (not32 x &&& z)

def maj32 (x y z : Nat) : Nat := (x &&& y) ^^^ (x &&& z) ^^^ (y &&& z)

def bigSig0 (x : Nat) : Nat := rotr32 x 2 ^^^ rotr32 x 13 ^^^ rotr32 x 22

def bigSig1 (x : Nat) : Nat := rotr32 x 6 ^^^ rotr32 x 11 ^^^ rotr32 x 25

def smallSig0 (x : Nat) : Nat := rotr32 x 7 ^^^ rotr32 x 18 ^^^ (x >>> 3)

def smallSig1 (x : Nat) : Nat := rotr32 x 17 ^^^ rotr32 x 19 ^^^ (x >>> 10)

/-- The 64 SHA-256 round constants (decimal). -/
def sha256K : List Nat :=
  [1116352408, 1899447441, 3049323471, 3921009573, 961987163,
   1508970993, 2453635748, 2870763221, 3624381080, 310598401,
   607225278, 1426881987, 1925078388, 2162078206, 2614888103,
   3248222580, 3835390401, 4022224774, 264347078, 604807628,
   770255983, 1249150122, 1555081692, 1996064986, 2554220882,
   2821834349, 2952996808, 3210313671, 3336571891, 3584528711,
   113926993, 338241895, 666307205, 773529912, 1294757372,
   1396182291, 1695183700, 1986661051, 2177026350, 2456956037,
   2730485921, 2820302411, 3259730800, 3345764771, 3516065817,
   3600352804, 4094571909, 275423344, 430227734, 506948616,
   659060556, 883997877, 958139571, 1322822218, 1537002063,
   1747873779, 1955562222, 2024104815, 2227730452, 2361852424,
   2428436474, 2756734187, 3204031479, 3329325298]

/-- The eight working variables of the compression function. -/
structure H8 where
  a : Nat
  b : Nat
  c : Nat
  d : Nat
  e : Nat
  f : Nat
  g : Nat
  h : Nat
deriving Repr, DecidableEq

/-- SHA-256 initial hash value (decimal). -/
def sha256H0 : H8 :=
  ⟨1779033703, 3144134277, 1013904242, 2773480762,
   1359893119, 2600822924, 528734635, 1541459225⟩

/-- Big-endian 4-byte encoding of a 32-bit word. -/
def be32 (n : Nat) : List Nat :=
  [n / 16777216 % 256, n / 65536 % 256, n / 256 % 256, n % 256]

/-- Big-endian 8-byte encoding of a 64-bit length. -/
def be64 (n : Nat) : List Nat :=
  [n / 2 ^ 56 % 256, n / 2 ^ 48 % 256, n / 2 ^ 40 % 256, n / 2 ^ 32 % 256,
   n / 2 ^ 24 % 256, n / 2 ^ 16 % 256, n / 2 ^ 8 % 256, n % 256]

/-- Message schedule: 16 big-endian words from the 64-byte block, extended to 64. -/
def schedule (block : List Nat) : List Nat :=
  let w16 := (List.range 16).map (fun i =>
    block.getD (4 * i) 0 * 16777216 + block.getD (4 * i + 1) 0 * 65536 +
      block.getD (4 * i + 2) 0 * 256 + block.getD (4 * i + 3) 0)
  (List.range 48).foldl (fun w _ =>
    let t := w.length
    w ++ [(w.getD (t - 16) 0 + smallSig0 (w.getD (t - 15) 0) + w.getD (t - 7) 0 +
           smallSig1 (w.getD (t - 2) 0)) % 2 ^ 32]) w16

/-- One round of the SHA-256 compression function. -/
def roundStep (w : List Nat) (st : H8) (i : Nat) : H8 :=
  let t1 := (st.h + bigSig1 st.e + ch32 st.e st.f st.g + sha256K.getD i 0 + w.getD i 0) % 2 ^ 32
  let t2 := (bigSig0 st.a + maj32 st.a st.b st.c) % 2 ^ 32
  { a := (t1 + t2) % 2 ^ 32, b := st.a, c := st.b, d := st.c,
    e := (st.d + t1) % 2 ^ 32, f := st.e, g := st.f, h := st.g }

/-- Compress one 64-byte block into the running hash state. -/
def compressBlock (st : H8) (block : List Nat) : H8 :=
  let w := schedule block
  let r := (List.range 64).foldl (roundStep w) st
  { a := (st.a + r.a) % 2 ^ 32, b := (st.b + r.b) % 2 ^ 32,
    c := (st.c + r.c) % 2 ^ 32, d := (st.d + r.d) % 2 ^ 32,
    e := (st.e + r.e) % 2 ^ 32, f := (st.f + r.f) % 2 ^ 32,
    g := (st.g + r.g) % 2 ^ 32, h := (st.h + r.h) % 2 ^ 32 }

/-- Standard SHA-256 padding: 0x80, zeros, then the 64-bit bit length. -/
def sha256Pad (msg : List Nat) : List Nat :=
  let len := msg.length
  let zeros := (120 - (len + 1) % 64) % 64
  msg ++ [128] ++ List.replicate zeros 0 ++ be64 (8 * len)

/-- Split a padded message into its 64-byte blocks. -/
def blocksOf (bs : List Nat) : List (List Nat) :=
  (List.range (bs.length / 64)).map (fun i => (bs.drop (64 * i)).take 64)

/-- SHA-256 digest (32 bytes) of a byte sequence. -/
def sha256 (msg : List Nat) : List Nat :=
  let fin := (blocksOf (sha256Pad msg)).foldl compressBlock sha256H0
  be32 fin.a ++ be32 fin.b ++ be32 fin.c ++ be32 fin.d ++
    be32 fin.e ++ be32 fin.f ++ be32 fin.g ++ be32 fin.h

def hexChar (n : Nat) : Char :=
  if n < 10 then Char.ofNat (48 + n) else Char.ofNat (87 + n)

def byteHex (b : Nat) : List Char := [hexChar (b / 16), hexChar (b % 16)]

/-- Lowercase-hex digest string, as hashlib's hexdigest(). -/
def sha256Hex (msg : List Nat) : String :=
  String.mk ((sha256 msg).flatMap byteHex)

/- ## String normalization and identity (stable_job_id, src/radar.py:149-151) -/

/-- UTF-8 encoding of one Unicode scalar value.  Lean characters are
always scalar values, so the source's errors="ignore" (which drops
unencodable lone surrogates) is a no-op in this model. -/
def utf8EncodeChar (c : Char) : List Nat :=
  let n := c.toNat
  if n < 128 then [n]
  else if n < 2048 then [192 + n / 64, 128 + n % 64]
  else if n < 65536 then [224 + n / 4096, 128 + n / 64 % 64, 128 + n % 64]
  else [240 + n / 262144, 128 + n / 4096 % 64, 128 + n / 64 % 64, 128 + n % 64]

/-- str.encode("utf-8", errors="ignore"). -/
def utf8Bytes (s : String) : List Nat := s.data.flatMap utf8EncodeChar

/-- str.strip(): trim leading/trailing whitespace (ASCII-whitespace model). -/
def pyStrip (s : String) : String :=
  String.mk (((s.data.dropWhile Char.isWhitespace).reverse.dropWhile
    Char.isWhitespace).reverse)

/-- str.lower(): character-wise lowercasing (ASCII model of Python lower). -/
def pyLower (s : String) : String := String.mk (s.data.map Char.toLower)

/-- stable_job_id (src/radar.py:149-151):
sha256 of "title.strip().lower() || company.strip().lower()" in UTF-8. -/
def stable_job_id (title company : String) : String :=
  sha256Hex (utf8Bytes (pyLower (pyStrip title) ++ "||" ++ pyLower (pyStrip company)))

/- ## State store (load_state / save_state, src/radar.py:153-175)
Epoch times (Python floats from time.time()) are modelled as rationals.
The persisted JSON object is modelled by `RawState` (each key possibly
missing); a missing or unparseable file is `none`. -/

/-- The in-memory persisted state: seen ids (oldest first), per-source
last-poll times, ids already written to the ledger. -/
structure StateRec where
  seen : List String
  last_poll : List (String × ℚ)
  saved : List String
deriving Repr, DecidableEq

/-- A parsed state file: each of the three keys may be absent. -/
structure RawState where
  seen : Option (List String)
  last_poll : Option (List (String × ℚ))
  saved : Option (List String)
deriving Repr, DecidableEq

/-- load_state (src/radar.py:153-167).  `none` models a missing file or
any parse failure; a present object has each missing key defaulted. -/
def load_state : Option RawState → StateRec
  | none => { seen := [], last_poll := [], saved := [] }
  | some d => { seen := d.seen.getD [], last_poll := d.last_poll.getD [],
                saved := d.saved.getD [] }

/-- Python slice l[i:] for an arbitrary (possibly negative) start index. -/
def pySliceFrom (l : List String) (i : Int) : List String :=
  if 0 ≤ i then l.drop i.toNat else l.drop ((l.length : Int) + i).toNat

/-- save_state (src/radar.py:169-175): truncate seen via the slice
seen[-max_seen:] when len(seen) > max_seen, then write all three keys.
The temp-file-plus-rename mechanics are I/O and outside the model; the
function returns the record the file holds afterwards. -/
def save_state (rec : StateRec) (max_seen : Int) : RawState :=
  let seen := if (rec.seen.length : Int) > max_seen
              then pySliceFrom rec.seen (-max_seen) else rec.seen
  { seen := some seen, last_poll := some rec.last_poll, saved := some rec.saved }

/-- The n most-recent (last) entries of a list. -/
def lastN (n : Nat) (l : List String) : List String := l.drop (l.length - n)

/- ## Poll scheduler (src/radar.py:474-481) -/

/-- dict.get(name, 0) over the last_poll association list. -/
def lookupD (l : List (String × ℚ)) (k : String) (d : ℚ) : ℚ :=
  match l.lookup k with
  | some v => v
  | none => d

/-- Due-ness of a source: the negation of the source's skip condition
`now - last < interval and not first_run` (src/radar.py:478-481). -/
def sourceDue (first_run : Bool) (last_poll : List (String × ℚ))
    (name : String) (interval now : ℚ) : Bool :=
  let last := lookupD last_poll name 0
  !(decide (now - last < interval) && !first_run)

/- ## Score normalization (_to_score_percent, src/radar.py:65-72) -/

/-- Python round(): round half to even (banker's rounding). -/
def pyRound (q : ℚ) : ℤ :=
  let f := ⌊q⌋
  let r := q - f
  if r < 1 / 2 then f
  else if 1 / 2 < r then f + 1
  else if f % 2 = 0 then f else f + 1

/-- Embeds _to_score_percent (src/radar.py:65-72) on a numeric input; the
float() conversion-failure branch (return 0) applies only to
non-numeric input and is outside this numeric model. -/
def to_score_percent (score : ℚ) : ℤ :=
  let val := if score ≤ 1 then score * 100 else score
  max 0 (min 100 (pyRound val))

/- ## Fetch (fetch_jobs_from_source, src/radar.py:205-271)
The external scrape_jobs call is modelled by an `Except` value: the
source wraps the whole fetch in try/except and returns the jobs
accumulated so far (none, when the scrape itself raises).  Row fields
are `Option String` (None/NaN collapse to `none`); the dataframe is a
row list, where `df is None or df.empty` corresponds to an empty ok
list. -/

/-- A normalized job posting (dataclass Job, src/radar.py:31-41).
published_dt keeps only the rendered date of the datetime object. -/
structure Job where
  jid : String
  title : String
  link : String
  published : String
  published_dt : Option String
  summary : String
  source : String
  company : String
  location : String
deriving Repr, DecidableEq

/-- A date_posted cell: a datetime-like value (has strftime) or a raw
non-datetime value rendered with str(). -/
inductive DateVal where
  | dt (s : String)
  | raw (s : String)
deriving Repr, DecidableEq

/-- A location cell: absent/NaN, a plain value, or a dict with
city/state/country keys. -/
inductive RowLoc where
  | missing
  | plain (s : String)
  | dict (city st country : Option String)
deriving Repr, DecidableEq

/-- One raw record of the scraped dataframe. -/
structure Row where
  job_url : Option String
  title : Option String
  date_posted : Option DateVal
  location : RowLoc
  city : Option String
  state : Option String
  country : Option String
  company : Option String
  description : Option String
deriving Repr, DecidableEq

/-- safe_str (src/radar.py:177-182): None/NaN become "", otherwise
str(val).strip(). -/
def safe_str (v : Option String) : String :=
  match v with
  | none => ""
  | some s => pyStrip s

/-- Embeds _row_location (src/radar.py:184-203). -/
def row_location (r : Row) : String :=
  let location_str :=
    match r.location with
    | RowLoc.dict c s k =>
        let parts := [safe_str c, safe_str s, safe_str k].filter (fun p => p ≠ "")
        if parts = [] then "" else String.intercalate ", " parts
    | RowLoc.plain s => safe_str (some s)
    | RowLoc.missing => ""
  if location_str ≠ "" then location_str
  else
    let parts := [safe_str r.city, safe_str r.state, safe_str r.country].filter
      (fun p => p ≠ "")
    if parts = [] then "Unknown" else String.intercalate ", " parts

/-- company = safe_str(row.get("company")) or "Unknown" (src/radar.py:249). -/
def companyOf (r : Row) : String :=
  let c := safe_str r.company
  if c = "" then "Unknown" else c

/-- The identifier a raw record would be assigned (src/radar.py:251). -/
def rowJid (r : Row) : String :=
  stable_job_id (safe_str r.title) (companyOf r)

/-- Published date handling (src/radar.py:235-246): a datetime value
yields (the object, its strftime rendering); any other non-null value
yields (None, str(value)); null yields (None, ""). -/
def publishedOf (r : Row) : Option String × String :=
  match r.date_posted with
  | none => (none, "")
  | some (DateVal.dt s) => (some s, s)
  | some (DateVal.raw s) => (none, s)

/-- One iteration of the row loop (src/radar.py:229-268): skip rows
without url or title, then skip rows whose identifier is already among
the accumulated jobs, otherwise append the constructed Job. -/
def stepRow (src : String) (jobs : List Job) (r : Row) : List Job :=
  let job_url := safe_str r.job_url
  let title := safe_str r.title
  if job_url = "" ∨ title = "" then jobs
  else
    let pub := publishedOf r
    let location_str := row_location r
    let company := companyOf r
    let description := safe_str r.description
    let jid := stable_job_id title company
    if jobs.any (fun j => j.jid == jid) then jobs
    else jobs ++ [{ jid := jid, title := title, link := job_url,
                    published := pub.2, published_dt := pub.1,
                    summary := description, source := src,
                    company := company, location := location_str }]

/-- The job list built from the scraped rows (src/radar.py:226-268). -/
def buildJobs (src : String) (rows : List Row) : List Job :=
  rows.foldl (stepRow src) []

/-- fetch_jobs_from_source (src/radar.py:205-271): a raising scrape is
caught and yields the empty accumulation; a successful scrape yields
the row-loop result. -/
def fetch_jobs_from_source (src : String) (scrape : Except String (List Row)) :
    List Job :=
  match scrape with
  | Except.error _ => []
  | Except.ok rows => buildJobs src rows

/- ## Acceptance pipeline (src/radar.py:498-545)
The per-source inner loop of main().  The scorer is an oracle
`Job → Int × String` giving the already-normalized percentage score
and the rationale; `none` models `client and resume` being falsy
(score stays 0, reasoning "", and the min-score gate is not reached).
The ledger file is modelled as the list of appended entries and the
rendered cards as the list of render calls. -/

/-- The four tier counters (found dict, src/radar.py:453). -/
structure Found where
  magenta : Nat
  yellow : Nat
  blue : Nat
  white : Nat
deriving Repr, DecidableEq

/-- The mutable state the inner loop touches. -/
structure PState where
  seenList : List String
  found : Found
  savedList : List String
  savedCount : Nat
  ledger : List (Job × Int × String)
  rendered : List (Job × Int × String)
deriving Repr, DecidableEq

/-- The empty startup state (fresh run, no state file). -/
def pstEmpty : PState := ⟨[], ⟨0, 0, 0, 0⟩, [], 0, [], []⟩

/-- Tier classification of a score (src/radar.py:528-535). -/
def bumpFound (f : Found) (score : Int) : Found :=
  if 80 ≤ score then { f with magenta := f.magenta + 1 }
  else if 60 ≤ score then { f with yellow := f.yellow + 1 }
  else if 40 ≤ score then { f with blue := f.blue + 1 }
  else { f with white := f.white + 1 }

/-- The tail of the loop body after the min-score gate
(src/radar.py:528-543): bump the tier counter, render the card, and
append to the ledger when score >= 60 and the id is not yet saved. -/
def acceptJob (st : PState) (job : Job) (score : Int) (reasoning : String) :
    PState :=
  let st1 := { st with found := bumpFound st.found score,
                       rendered := st.rendered ++ [(job, score, reasoning)] }
  if 60 ≤ score ∧ job.jid ∉ st1.savedList then
    { st1 with ledger := st1.ledger ++ [(job, score, reasoning)],
               savedList := st1.savedList ++ [job.jid],
               savedCount := st1.savedCount + 1 }
  else st1

/-- One iteration of the pending-jobs loop (src/radar.py:509-543):
mark seen first; with a scorer, score and apply the min-score gate
(`continue` keeps only the seen mark); without one, fall through with
score 0 and empty reasoning. -/
def processJob (min_score : Int) (scorer : Option (Job → Int × String))
    (st : PState) (job : Job) : PState :=
  let st1 := { st with seenList := st.seenList ++ [job.jid] }
  match scorer with
  | none => acceptJob st1 job 0 ""
  | some f =>
      let res := f job
      if res.1 < min_score then st1
      else acceptJob st1 job res.1 res.2

/-- The jobs entering the loop for one fetched batch
(src/radar.py:498-501): on the first run truncate to the initial
limit, then keep those whose id is not in seen. -/
def enteringJobs (first_run : Bool) (initial_limit : Nat)
    (seenList : List String) (jobs : List Job) : List Job :=
  let jobs1 := if first_run then jobs.take initial_limit else jobs
  jobs1.filter (fun j => !(seenList.contains j.jid))

/-- One source's batch through the acceptance pipeline
(src/radar.py:498-543). -/
def processSource (first_run : Bool) (initial_limit : Nat) (min_score : Int)
    (scorer : Option (Job → Int × String)) (st : PState) (jobs : List Job) :
    PState :=
  (enteringJobs first_run initial_limit st.seenList jobs).foldl
    (processJob min_score scorer) st

/- ## Concrete fixtures used by counterexamples and witnesses -/

/-- A listing with identifier "a" (identifiers are opaque to the
pipeline, which never recomputes them). -/
def jobA : Job :=
  { jid := "a", title := "A", link := "u1", published := "",
    published_dt := none, summary := "", source := "s",
    company := "CA", location := "L" }

/-- A listing with identifier "b". -/
def jobB : Job :=
  { jid := "b", title := "B", link := "u2", published := "",
    published_dt := none, summary := "", source := "s",
    company := "CB", location := "L" }

/-- The scorer used by the C3 scenario: 90 for identifier "a", 10 otherwise. -/
def fAB : Job → Int × String :=
  fun j => (if j.jid = "a" then (90 : Int) else 10, "")

/-- State after one first-run pass over the batch [jobA, jobB] with the
fAB scorer and min_score 0: seen = ["a","b"], saved = ["a"]. -/
def stAB : PState := processSource true 20 0 (some fAB) pstEmpty [jobA, jobB]

/-- The persisted record of that state (no polls recorded). -/
def recAB : StateRec := { seen := stAB.seenList, last_poll := [], saved := stAB.savedList }

/-- State after a first-run pass over the single-listing batch [jobA]
with no scorer: seen = ["a"]. -/
def stA : PState := processSource true 20 0 none pstEmpty [jobA]

/-- A constant scorer returning 65 ("Strong" but below a 70 cutoff). -/
def f65 : Job → Int × String := fun _ => ((65 : Int), "")

/-- A raw record with url "u1", title "T", company "C". -/
def rowDup1 : Row :=
  { job_url := some "u1", title := some "T", date_posted := none,
    location := RowLoc.missing, city := none, state := none, country := none,
    company := some "C", description := some "d" }

/-- The same posting re-delivered under a different url: identical
title and company, hence the same identifier. -/
def rowDup2 : Row := { rowDup1 with job_url := some "u2" }

/-- The ledger-idempotence invariant: ledger identifiers are pairwise
distinct and every ledgered identifier is recorded in saved. -/
def LedgerInv (st : PState) : Prop :=
  ((st.ledger.map (fun e => e.1.jid)).Nodup) ∧
  (∀ e ∈ st.ledger, e.1.jid ∈ st.savedList)

/- ## Helper lemmas -/

theorem pyRound_int (n : ℤ) : pyRound ((n : ℚ)) = n := by
  simp only [pyRound, Int.floor_intCast]
  norm_num

theorem acceptJob_seenList (st : PState) (job : Job) (score : Int) (r : String) :
    (acceptJob st job score r).seenList = st.seenList := by
  simp only [acceptJob]
  split <;> rfl

theorem acceptJob_rendered (st : PState) (job : Job) (score : Int) (r : String) :
    (acceptJob st job score r).rendered = st.rendered ++ [(job, score, r)] := by
  simp only [acceptJob]
  split <;> rfl

theorem acceptJob_pos (st : PState) (job : Job) (score : Int) (r : String)
    (h : 60 ≤ score ∧ job.jid ∉ st.savedList) :
    (acceptJob st job score r).ledger = st.ledger ++ [(job, score, r)] ∧
    (acceptJob st job score r).savedList = st.savedList ++ [job.jid] := by
  simp [acceptJob, if_pos h]

theorem acceptJob_neg (st : PState) (job : Job) (score : Int) (r : String)
    (h : ¬ (60 ≤ score ∧ job.jid ∉ st.savedList)) :
    (acceptJob st job score r).ledger = st.ledger ∧
    (acceptJob st job score r).savedList = st.savedList := by
  simp [acceptJob, if_neg h]

theorem acceptJob_savedList_sub (st : PState) (job : Job) (score : Int)
    (r : String) :
    ∀ x ∈ (acceptJob st job score r).savedList, x ∈ st.savedList ++ [job.jid] := by
  intro x hx
  by_cases h : 60 ≤ score ∧ job.jid ∉ st.savedList
  · rw [(acceptJob_pos st job score r h).2] at hx
    exact hx
  · rw [(acceptJob_neg st job score r h).2] at hx
    exact List.mem_append_left _ hx

theorem processJob_seenList (ms : Int) (sc : Option (Job → Int × String))
    (st : PState) (job : Job) :
    (processJob ms sc st job).seenList = st.seenList ++ [job.jid] := by
  cases sc with
  | none => simp [processJob, acceptJob_seenList]
  | some f =>
      by_cases hg : (f job).1 < ms
      · simp [processJob, hg]
      · simp [processJob, hg, acceptJob_seenList]

theorem processJob_savedList_sub (ms : Int) (sc : Option (Job → Int × String))
    (st : PState) (job : Job) :
    ∀ x ∈ (processJob ms sc st job).savedList, x ∈ st.savedList ++ [job.jid] := by
  intro x hx
  cases sc with
  | none =>
      simp only [processJob] at hx
      have h2 := acceptJob_savedList_sub _ _ _ _ x hx
      exact h2
  | some f =>
      by_cases hg : (f job).1 < ms
      · simp only [processJob, if_pos hg] at hx
        exact List.mem_append_left _ hx
      · simp only [processJob, if_neg hg] at hx
        have h2 := acceptJob_savedList_sub _ _ _ _ x hx
        exact h2

theorem processJob_saved_sub (ms : Int) (sc : Option (Job → Int × String))
    (st : PState) (job : Job) (h : ∀ x ∈ st.savedList, x ∈ st.seenList) :
    ∀ x ∈ (processJob ms sc st job).savedList,
      x ∈ (processJob ms sc st job).seenList := by
  intro x hx
  rw [processJob_seenList]
  rcases List.mem_append.mp (processJob_savedList_sub ms sc st job x hx) with h1 | h2
  · exact List.mem_append_left _ (h x h1)
  · exact List.mem_append_right _ h2

theorem foldl_processJob_saved_sub (ms : Int) (sc : Option (Job → Int × String)) :
    ∀ (l : List Job) (st : PState), (∀ x ∈ st.savedList, x ∈ st.seenList) →
      ∀ x ∈ (l.foldl (processJob ms sc) st).savedList,
        x ∈ (l.foldl (processJob ms sc) st).seenList := by
  intro l
  induction l with
  | nil => intro st h; simpa using h
  | cons j tl ih => intro st h; exact ih _ (processJob_saved_sub ms sc st j h)

theorem processJob_ledger_none (ms : Int) (st : PState) (job : Job) :
    (processJob ms none st job).ledger = st.ledger := by
  simp only [processJob]
  exact (acceptJob_neg _ _ _ _ (fun h => absurd h.1 (by norm_num))).1

theorem processJob_ledger_saved (ms : Int) (sc : Option (Job → Int × String))
    (st : PState) (job : Job) (hmem : job.jid ∈ st.savedList) :
    (processJob ms sc st job).ledger = st.ledger := by
  cases sc with
  | none => exact processJob_ledger_none ms st job
  | some f =>
      by_cases hg : (f job).1 < ms
      · simp only [processJob, if_pos hg]
      · simp only [processJob, if_neg hg]
        exact (acceptJob_neg { st with seenList := st.seenList ++ [job.jid] }
          job (f job).1 (f job).2 (fun h => absurd hmem h.2)).1

theorem processJob_ledger_some (ms : Int) (f : Job → Int × String)
    (st : PState) (job : Job) :
    (processJob ms (some f) st job).ledger =
        st.ledger ++ [(job, (f job).1, (f job).2)] ↔
      ms ≤ (f job).1 ∧ 60 ≤ (f job).1 ∧ job.jid ∉ st.savedList := by
  by_cases hg : (f job).1 < ms
  · simp only [processJob, if_pos hg]
    constructor
    · intro hEq
      exfalso
      have hlen := congrArg List.length hEq
      simp at hlen
    · intro h
      exfalso
      omega
  · by_cases hs : 60 ≤ (f job).1 ∧ job.jid ∉ st.savedList
    · have hL := (acceptJob_pos { st with seenList := st.seenList ++ [job.jid] }
        job (f job).1 (f job).2 hs).1
      simp only [processJob, if_neg hg]
      rw [hL]
      constructor
      · intro _
        exact ⟨not_lt.mp hg, hs.1, hs.2⟩
      · intro _
        rfl
    · have hL := (acceptJob_neg { st with seenList := st.seenList ++ [job.jid] }
        job (f job).1 (f job).2 hs).1
      simp only [processJob, if_neg hg]
      rw [hL]
      constructor
      · intro hEq
        exfalso
        have hlen := congrArg List.length hEq
        simp at hlen
      · intro h
        exact absurd ⟨h.2.1, h.2.2⟩ hs

theorem acceptJob_LedgerInv (st : PState) (job : Job) (score : Int) (r : String)
    (hinv : LedgerInv st) : LedgerInv (acceptJob st job score r) := by
  by_cases h : 60 ≤ score ∧ job.jid ∉ st.savedList
  · obtain ⟨hl, hs⟩ := acceptJob_pos st job score r h
    constructor
    · rw [hl, List.map_append]
      refine List.Nodup.append hinv.1 (by simp) ?_
      intro x hx hy
      simp at hy
      rcases List.mem_map.mp hx with ⟨e, he, hex⟩
      apply h.2
      have : e.1.jid ∈ st.savedList := hinv.2 e he
      rw [hex, hy] at this
      exact this
    · intro e he
      rw [hl] at he
      rw [hs]
      rcases List.mem_append.mp he with h1 | h2
      · exact List.mem_append_left _ (hinv.2 e h1)
      · simp at h2
        rw [h2]
        simp
  · obtain ⟨hl, hs⟩ := acceptJob_neg st job score r h
    constructor
    · rw [hl]
      exact hinv.1
    · intro e he
      rw [hl] at he
      rw [hs]
      exact hinv.2 e he

theorem processJob_LedgerInv (ms : Int) (sc : Option (Job → Int × String))
    (st : PState) (job : Job) (hinv : LedgerInv st) :
    LedgerInv (processJob ms sc st job) := by
  have hst1 : LedgerInv { st with seenList := st.seenList ++ [job.jid] } := hinv
  cases sc with
  | none =>
      simp only [processJob]
      exact acceptJob_LedgerInv _ _ _ _ hst1
  | some f =>
      by_cases hg : (f job).1 < ms
      · simp only [processJob, if_pos hg]
        exact hst1
      · simp only [processJob, if_neg hg]
        exact acceptJob_LedgerInv _ _ _ _ hst1

theorem stepRow_eq_of_mem (src : String) (jobs : List Job) (r : Row)
    (h : ∃ j ∈ jobs, j.jid = rowJid r) : stepRow src jobs r = jobs := by
  rcases h with ⟨j, hj, hjid⟩
  by_cases hv : safe_str r.job_url = "" ∨ safe_str r.title = ""
  · simp only [stepRow, if_pos hv]
  · have hany : jobs.any
        (fun x => x.jid == stable_job_id (safe_str r.title) (companyOf r)) = true := by
      refine List.any_eq_true.mpr ⟨j, hj, ?_⟩
      rw [beq_iff_eq, hjid]
      rfl
    simp only [stepRow, if_neg hv, if_pos hany]

theorem stepRow_nodup (src : String) (jobs : List Job) (r : Row)
    (h : (jobs.map Job.jid).Nodup) :
    ((stepRow src jobs r).map Job.jid).Nodup := by
  by_cases hv : safe_str r.job_url = "" ∨ safe_str r.title = ""
  · simpa only [stepRow, if_pos hv] using h
  · by_cases hany : jobs.any
        (fun x => x.jid == stable_job_id (safe_str r.title) (companyOf r)) = true
    · simpa only [stepRow, if_neg hv, if_pos hany] using h
    · simp only [stepRow, if_neg hv, if_neg hany, List.map_append, List.map_cons,
        List.map_nil]
      refine List.Nodup.append h (by simp) ?_
      intro x hx hy
      simp at hy
      rcases List.mem_map.mp hx with ⟨j, hj, hjx⟩
      apply hany
      refine List.any_eq_true.mpr ⟨j, hj, ?_⟩
      rw [beq_iff_eq, hjx, hy]

theorem buildJobs_append1 (src : String) (rows : List Row) (r : Row) :
    buildJobs src (rows ++ [r]) = stepRow src (buildJobs src rows) r := by
  simp [buildJobs, List.foldl_append]

theorem foldl_stepRow_nodup (src : String) :
    ∀ (rows : List Row) (acc : List Job), (acc.map Job.jid).Nodup →
      ((rows.foldl (stepRow src) acc).map Job.jid).Nodup := by
  intro rows
  induction rows with
  | nil => intro acc h; simpa using h
  | cons r tl ih => intro acc h; exact ih _ (stepRow_nodup src acc r h)

/- ## Claim theorems -/

/-- C4 counterexample: with max_seen = 0 and seen = ["a"] the slice
seen[-0:] is the whole list, so save-then-load returns ["a"] rather
than the 0 most-recent entries ([]) that the claim promises for every
max_seen. -/
theorem c4_counterexample :
    (load_state (some (save_state ⟨["a"], [], []⟩ 0))).seen = ["a"] ∧
    lastN (Int.toNat 0) ["a"] = [] ∧
    (load_state (some (save_state ⟨["a"], [], []⟩ 0))).seen ≠
      lastN (Int.toNat 0) ["a"] := by
  refine ⟨by decide, by decide, by decide⟩

/-- C4 (amended: for every max_seen ≥ 1): save then load returns
last_poll and saved exactly as saved, and seen exactly as saved when
its length is at most max_seen, otherwise the max_seen most-recent
(last) entries with the oldest dropped first. -/
theorem c4_save_load_roundtrip (rec : StateRec) (m : Int) (hm : 1 ≤ m) :
    load_state (some (save_state rec m)) =
      { seen := if (rec.seen.length : Int) ≤ m then rec.seen
                else lastN m.toNat rec.seen,
        last_poll := rec.last_poll, saved := rec.saved } := by
  have h0 : ¬ (0 ≤ -m) := by omega
  by_cases hlen : (rec.seen.length : Int) > m
  · have h1 : ¬ ((rec.seen.length : Int) ≤ m) := by omega
    have h2 : ((rec.seen.length : Int) + -m).toNat = rec.seen.length - m.toNat := by
      omega
    simp [load_state, save_state, pySliceFrom, lastN, hlen, h0, h1, h2]
  · have h1 : (rec.seen.length : Int) ≤ m := by omega
    simp [load_state, save_state, hlen, h1]

/-- C4 witness: the round-trip theorem applied to a concrete state and
max_seen = 1. -/
theorem c4_save_load_roundtrip_witness :
    load_state (some (save_state ⟨["x", "y"], [], []⟩ 1)) =
      { seen := if (((["x", "y"] : List String).length : Int) ≤ 1)
                then ["x", "y"] else lastN (Int.toNat 1) ["x", "y"],
        last_poll := [], saved := [] } :=
  c4_save_load_roundtrip ⟨["x", "y"], [], []⟩ 1 (by decide)

/-- C5: a raising scrape is caught inside fetch_jobs_from_source and
yields the empty job list, and within a tick's map over sources the
erroring source contributes [] while every other source's result is
unaffected. -/
theorem c5_fetch_error_isolated :
    (∀ (src e : String), fetch_jobs_from_source src (Except.error e) = []) ∧
    (∀ (pre post : List (String × Except String (List Row))) (src e : String),
      (pre ++ (src, Except.error e) :: post).map
          (fun p => fetch_jobs_from_source p.1 p.2) =
        pre.map (fun p => fetch_jobs_from_source p.1 p.2) ++
          [] :: post.map (fun p => fetch_jobs_from_source p.1 p.2)) := by
  constructor
  · intro src e
    rfl
  · intro pre post src e
    simp [fetch_jobs_from_source]

/-- C7: stable_job_id depends only on the stripped, lowercased title
and company, so any two (title, company) pairs equal after trimming
and lowercasing hash to the same identifier. -/
theorem c7_stable_job_id_normalized (t c t2 c2 : String)
    (ht : pyLower (pyStrip t) = pyLower (pyStrip t2))
    (hc : pyLower (pyStrip c) = pyLower (pyStrip c2)) :
    stable_job_id t c = stable_job_id t2 c2 := by
  unfold stable_job_id
  rw [ht, hc]

/-- C7 witness: identify("Foo","Bar") = identify(" foo ", "BAR "). -/
theorem c7_stable_job_id_normalized_witness :
    stable_job_id "Foo" "Bar" = stable_job_id " foo " "BAR " :=
  c7_stable_job_id_normalized "Foo" "Bar" " foo " "BAR " (by decide) (by decide)

/-- C8: a source is due exactly when first_run is true or
now - last_poll[source] >= interval, with absent sources defaulting to
last_poll 0 (hence due whenever interval ≤ now); in particular, with
interval 10 and first_run false, last_poll = now-5 is not due and
last_poll = now-15 is due. -/
theorem c8_source_due_spec :
    (∀ (fr : Bool) (lp : List (String × ℚ)) (name : String) (interval now : ℚ),
        sourceDue fr lp name interval now = true ↔
          fr = true ∨ interval ≤ now - lookupD lp name 0) ∧
    (∀ (lp : List (String × ℚ)) (name : String) (interval now : ℚ),
        lp.lookup name = none → interval ≤ now →
          sourceDue false lp name interval now = true) ∧
    (∀ (now : ℚ) (s : String), sourceDue false [(s, now - 5)] s 10 now = false) ∧
    (∀ (now : ℚ) (s : String), sourceDue false [(s, now - 15)] s 10 now = true) := by
  have hiff : ∀ (fr : Bool) (lp : List (String × ℚ)) (name : String)
      (interval now : ℚ), sourceDue fr lp name interval now = true ↔
        fr = true ∨ interval ≤ now - lookupD lp name 0 := by
    intro fr lp name interval now
    cases fr <;> simp [sourceDue, not_lt]
  refine ⟨hiff, ?_, ?_, ?_⟩
  · intro lp name interval now habs hnow
    rw [hiff]
    right
    simp [lookupD, habs]
    linarith
  · intro now s
    have h5 : now - lookupD [(s, now - 5)] s 0 = 5 := by
      simp [lookupD, List.lookup]
    simp only [Bool.not_eq_true] at *
    rw [Bool.eq_false_iff]
    intro hdue
    have := (hiff false [(s, now - 5)] s 10 now).mp hdue
    rw [h5] at this
    rcases this with h | h
    · exact Bool.false_ne_true h
    · norm_num at h
  · intro now s
    rw [hiff]
    right
    have h15 : now - lookupD [(s, now - 15)] s 0 = 15 := by
      simp [lookupD, List.lookup]
    rw [h15]
    norm_num

/-- C8 witness: an unpolled source with interval 10 at now = 100 is due. -/
theorem c8_source_due_spec_witness :
    sourceDue false [] "a" 10 100 = true :=
  c8_source_due_spec.2.1 [] "a" 10 100 rfl (by norm_num)

/-- C9: score normalization always lands in [0,100]; a raw score of at
most 1 is scaled by 100 before rounding and the result clamped; 0.73
normalizes to 73, 150 clamps to 100 and -5 clamps to 0. -/
theorem c9_to_score_percent_spec :
    (∀ q : ℚ, 0 ≤ to_score_percent q ∧ to_score_percent q ≤ 100) ∧
    (∀ q : ℚ, q ≤ 1 → to_score_percent q = max 0 (min 100 (pyRound (q * 100)))) ∧
    to_score_percent (73 / 100) = 73 ∧
    to_score_percent 150 = 100 ∧
    to_score_percent (-5) = 0 := by
  refine ⟨?_, ?_, ?_, ?_, ?_⟩
  · intro q
    constructor
    · exact le_max_left 0 _
    · exact max_le (by norm_num) (min_le_left _ _)
  · intro q hq
    simp [to_score_percent, if_pos hq]
  · have h1 : ((73 : ℚ) / 100) ≤ 1 := by norm_num
    have h2 : ((73 : ℚ) / 100) * 100 = ((73 : ℤ) : ℚ) := by norm_num
    simp only [to_score_percent, if_pos h1, h2, pyRound_int]
    omega
  · have h1 : ¬ ((150 : ℚ) ≤ 1) := by norm_num
    have h2 : (150 : ℚ) = ((150 : ℤ) : ℚ) := by norm_num
    simp only [to_score_percent, if_neg h1]
    rw [h2, pyRound_int]
    omega
  · have h1 : ((-5 : ℚ)) ≤ 1 := by norm_num
    have h2 : ((-5 : ℚ)) * 100 = ((-500 : ℤ) : ℚ) := by norm_num
    simp only [to_score_percent, if_pos h1, h2, pyRound_int]
    omega

/-- C9 witness: the scaling branch applied at the concrete input 1/2. -/
theorem c9_to_score_percent_spec_witness :
    to_score_percent (1 / 2) = max 0 (min 100 (pyRound (1 / 2 * 100))) :=
  c9_to_score_percent_spec.2.1 (1 / 2) (by norm_num)

/-- C1 counterexample: with no scorer configured and min_score = 50, a
listing whose score is 0 (below the threshold) is still rendered and
counted in the white tier - the min-score gate is bypassed entirely,
contradicting the claim's "with or without a scorer configured". -/
theorem c1_counterexample :
    (processJob 50 none pstEmpty jobA).rendered = [(jobA, 0, "")] ∧
    (processJob 50 none pstEmpty jobA).found.white = 1 ∧
    ((0 : Int) < 50) := by
  refine ⟨by decide, by decide, by decide⟩

/-- C1 (amended: the gate applies only when a scorer is configured):
with a scorer, a listing scoring below min_score leaves the state
unchanged except that its identifier is appended to seen - it is not
rendered, not counted in any tier, not ledgered; without a scorer
every pending listing is rendered (with score 0) regardless of
min_score. -/
theorem c1_gate_discard (min_score : Int) (f : Job → Int × String)
    (st : PState) (job : Job) (h : (f job).1 < min_score) :
    processJob min_score (some f) st job =
      { st with seenList := st.seenList ++ [job.jid] } ∧
    ∀ (st2 : PState) (job2 : Job),
      (processJob min_score none st2 job2).rendered =
        st2.rendered ++ [(job2, 0, "")] := by
  constructor
  · simp [processJob, h]
  · intro st2 job2
    simp only [processJob]
    rw [acceptJob_rendered]

/-- C1 witness: the discard equation applied at min_score 50 and a
scorer returning 10. -/
theorem c1_gate_discard_witness :
    processJob 50 (some (fun _ => ((10 : Int), "r"))) pstEmpty jobA =
      { pstEmpty with seenList := pstEmpty.seenList ++ [jobA.jid] } :=
  (c1_gate_discard 50 (fun _ => ((10 : Int), "r")) pstEmpty jobA (by decide)).1

/-- C2 counterexample: first run, initial limit 1, seen = ["a"] (from
a prior batch of the same first pass): the code truncates before
filtering and feeds the pipeline no listings, while the claimed
filter-then-truncate order would feed it jobB. -/
theorem c2_counterexample :
    enteringJobs true 1 stA.seenList [jobA, jobB] = [] ∧
    ([jobA, jobB].filter (fun j => !(stA.seenList.contains j.jid))).take 1 =
      [jobB] ∧
    enteringJobs true 1 stA.seenList [jobA, jobB] ≠
      ([jobA, jobB].filter (fun j => !(stA.seenList.contains j.jid))).take 1 := by
  refine ⟨by decide, by decide, by decide⟩

/-- C2 (amended: truncate before filter): on the first run the set of
listings entering the pipeline is the batch truncated to the
initial-run maximum first and then restricted to identifiers not in
seen; when seen is empty the two orders coincide. -/
theorem c2_entering_set (limit : Nat) (seen : List String) (jobs : List Job)
    (h : seen = []) :
    enteringJobs true limit seen jobs =
      (jobs.take limit).filter (fun j => !(seen.contains j.jid)) ∧
    enteringJobs true limit seen jobs =
      (jobs.filter (fun j => !(seen.contains j.jid))).take limit := by
  constructor
  · rfl
  · subst h
    simp [enteringJobs]

/-- C2 witness: the order-coincidence applied to the batch [jobA] with
empty seen and limit 3. -/
theorem c2_entering_set_witness :
    enteringJobs true 3 [] [jobA] =
      ([jobA].filter (fun j => !(([] : List String).contains j.jid))).take 3 :=
  (c2_entering_set 3 [] [jobA] rfl).2

/-- C3 counterexample: a first pass saves "a" (score 90) and also sees
"b" (score 10); saving with max_seen = 1 truncates seen to ["b"] but
leaves saved = ["a"], so after load "a" is saved but not seen -
saved ⊆ seen fails in a state reachable by one pipeline pass and one
save/load cycle. -/
theorem c3_counterexample :
    "a" ∈ (load_state (some (save_state recAB 1))).saved ∧
    "a" ∉ (load_state (some (save_state recAB 1))).seen := by
  refine ⟨by decide, by decide⟩

/-- C3 (amended: saved ⊆ seen is preserved by pipeline passes, and by
save/load cycles whose save does not truncate seen): an identifier is
appended to saved only after being appended to seen in the same pass,
and a non-truncating save/load round-trips both lists, but a
truncating save can evict saved identifiers from seen. -/
theorem c3_saved_subset_seen (fr : Bool) (lim : Nat) (ms : Int)
    (sc : Option (Job → Int × String)) (st : PState) (jobs : List Job)
    (h : ∀ x ∈ st.savedList, x ∈ st.seenList) :
    (∀ x ∈ (processSource fr lim ms sc st jobs).savedList,
        x ∈ (processSource fr lim ms sc st jobs).seenList) ∧
    (∀ (rec : StateRec) (m : Int), (∀ x ∈ rec.saved, x ∈ rec.seen) →
        (rec.seen.length : Int) ≤ m →
        ∀ x ∈ (load_state (some (save_state rec m))).saved,
          x ∈ (load_state (some (save_state rec m))).seen) := by
  constructor
  · exact foldl_processJob_saved_sub ms sc _ st h
  · intro rec m hsub hlen x hx
    have hnt : ¬ ((rec.seen.length : Int) > m) := by omega
    simp only [load_state, save_state, if_neg hnt, Option.getD_some] at hx ⊢
    exact hsub x hx

/-- C3 witness: the pass-preservation applied to the concrete scenario
that saves "a": "a" is in seen afterwards. -/
theorem c3_saved_subset_seen_witness :
    "a" ∈ (processSource true 20 0 (some fAB) pstEmpty [jobA]).seenList :=
  (c3_saved_subset_seen true 20 0 (some fAB) pstEmpty [jobA]
    (by simp [pstEmpty])).1 "a" (by decide)

/-- C6 counterexample: with a scorer returning 65 and min_score 70,
the listing is discarded at the min-score gate before the save check,
so no ledger entry is written although its score 65 meets the fixed
save threshold 60 and its identifier is not in saved - refuting the
claimed "exactly when". -/
theorem c6_counterexample :
    (processJob 70 (some f65) pstEmpty jobA).ledger = [] ∧
    (60 : Int) ≤ (f65 jobA).1 ∧ jobA.jid ∉ pstEmpty.savedList := by
  refine ⟨by decide, by decide, by decide⟩

/-- C6 (amended: among listings that pass the min-score gate): with a
scorer, an entry is appended exactly when the score passes the gate
(min_score ≤ score), meets the fixed save threshold 60, and the
identifier is not already in saved; a previously saved identifier
yields zero additional entries; without a scorer nothing is ledgered
(score 0 < 60); and the ledger-idempotence invariant (pairwise
distinct ledgered identifiers, all recorded in saved) is preserved, so
every identifier has at most one ledger entry. -/
theorem c6_ledger_append (ms : Int) (st : PState) (job : Job)
    (hinv : LedgerInv st) :
    (∀ f : Job → Int × String,
        ((processJob ms (some f) st job).ledger =
            st.ledger ++ [(job, (f job).1, (f job).2)] ↔
          ms ≤ (f job).1 ∧ 60 ≤ (f job).1 ∧ job.jid ∉ st.savedList) ∧
        (job.jid ∈ st.savedList →
          (processJob ms (some f) st job).ledger = st.ledger)) ∧
    ((processJob ms none st job).ledger = st.ledger) ∧
    (∀ sc, LedgerInv (processJob ms sc st job)) := by
  refine ⟨?_, processJob_ledger_none ms st job, ?_⟩
  · intro f
    exact ⟨processJob_ledger_some ms f st job,
           processJob_ledger_saved ms (some f) st job⟩
  · intro sc
    exact processJob_LedgerInv ms sc st job hinv

/-- C6 witness: the append characterization applied at min_score 0,
the 65-scorer, the empty state and jobA: the entry is appended. -/
theorem c6_ledger_append_witness :
    (processJob 0 (some f65) pstEmpty jobA).ledger =
      pstEmpty.ledger ++ [(jobA, (f65 jobA).1, (f65 jobA).2)] :=
  (((c6_ledger_append 0 pstEmpty jobA
      ⟨List.nodup_nil, by simp [pstEmpty]⟩).1 f65).1).mpr
    ⟨by decide, by decide, by decide⟩

/-- C10: within a single fetched batch the job identifiers are
pairwise distinct, and appending a raw record whose identifier is
already represented leaves the batch unchanged - only the first record
with a given identifier is kept. -/
theorem c10_batch_identifiers_distinct (src : String) (rows : List Row) :
    ((buildJobs src rows).map Job.jid).Nodup ∧
    (∀ r : Row, (∃ j ∈ buildJobs src rows, j.jid = rowJid r) →
      buildJobs src (rows ++ [r]) = buildJobs src rows) := by
  constructor
  · exact foldl_stepRow_nodup src rows [] (by simp)
  · intro r hr
    rw [buildJobs_append1]
    exact stepRow_eq_of_mem src (buildJobs src rows) r hr

set_option maxRecDepth 100000 in
/-- C10 witness: the same title and company re-delivered under a
different url yields the same identifier and is dropped. -/
theorem c10_batch_identifiers_distinct_witness :
    buildJobs "s" ([rowDup1] ++ [rowDup2]) = buildJobs "s" [rowDup1] :=
  (c10_batch_identifiers_distinct "s" [rowDup1]).2 rowDup2 (by decide)

end Radar
